import Mathlib

/-!
Verification of the name-service front-end in `src/index.tsx` (the newest
snapshot; `src/unnamed/part_002` is an identical copy of its logic).

The embedding models:
* the JavaScript string primitives used by the source (`toLowerCase`,
  `trim`, `includes`, `startsWith`, `endsWith`) on ASCII data,
* keccak-256 exactly (sponge with rate 136, 24-round permutation), because
  `ethers.namehash`, `ethers.id` and `ethers.getAddress` are keccak-based,
* the ethers helpers the source calls (`namehash`, `id`, `getAddress`,
  `isAddress`, `ZeroHash`, `ZeroAddress`), with ENS name normalization
  modelled as the identity (sound for the already lowercase ASCII names the
  source feeds them after its own `toLowerCase().trim()`),
* the three stateful handlers `handleSearch`, `fetchIdentityData` and
  `handleMintSubname` as pure functions of an oracle environment, returning
  the state updates they perform together with the ordered list of contract
  calls they issue.  A rejected promise is modelled as `Except.error m`
  where `m` is the message the catch clause would render
  (`err.reason || err.message || fallback`).
-/

set_option maxRecDepth 8000

/-! ### JavaScript string primitives (ASCII fragment) -/

/-- Models `c.toLowerCase()` on a single character, ASCII fragment. -/
def jsCharToLower (c : Char) : Char :=
  if 65 ≤ c.toNat ∧ c.toNat ≤ 90 then Char.ofNat (c.toNat + 32) else c

/-- Models `c.toUpperCase()` on a single character, ASCII fragment. -/
def jsCharToUpper (c : Char) : Char :=
  if 97 ≤ c.toNat ∧ c.toNat ≤ 122 then Char.ofNat (c.toNat - 32) else c

/-- Models `s.toLowerCase()` (ASCII fragment). -/
def jsToLower (s : String) : String := String.mk (s.data.map jsCharToLower)

/-- JavaScript whitespace recognised by `String.prototype.trim` (ASCII part). -/
def isWsChar (c : Char) : Bool :=
  c.toNat = 9 || c.toNat = 10 || c.toNat = 11 || c.toNat = 12 || c.toNat = 13 || c.toNat = 32

def trimChars (l : List Char) : List Char :=
  ((l.dropWhile isWsChar).reverse.dropWhile isWsChar).reverse

/-- Models `s.trim()`. -/
def jsTrim (s : String) : String := String.mk (trimChars s.data)

/-- Models `s.startsWith(p)`. -/
def jsStartsWith (s p : String) : Bool := p.data.isPrefixOf s.data

/-- Models `s.endsWith(p)`. -/
def jsEndsWith (s p : String) : Bool := p.data.isSuffixOf s.data

/-- Models `s.includes(c)` for a single-character needle. -/
def jsIncludesChar (s : String) (c : Char) : Bool := s.data.contains c

/-! ### keccak-256 (bytes are `Nat < 256`, lanes are `Nat < 2^64`) -/

def mask64 : Nat := 2 ^ 64 - 1

def rotl64 (x n : Nat) : Nat := ((x <<< n) ||| (x >>> (64 - n))) &&& mask64

/-- One step of the degree-8 LFSR (polynomial `x^8 + x^6 + x^5 + x^4 + 1`)
that generates the keccak round constants. -/
def rcStep (r : Nat) : Nat :=
  if r &&& 0x80 ≠ 0 then ((r <<< 1) ^^^ 0x71) &&& 0xFF else (r <<< 1) &&& 0xFF

/-- Bit `t` of the round-constant LFSR stream (state starts at 1, output is
the low bit before stepping). -/
def rcBit (t : Nat) : Nat := Nat.iterate rcStep t 1 &&& 1

/-- Round constant of round `i`: stream bits `7i .. 7i+6` placed at bit
positions `2^j - 1`. -/
def roundConstant (i : Nat) : Nat :=
  (List.range 7).foldl (fun acc j => acc ||| rcBit (7 * i + j) <<< (2 ^ j - 1)) 0

def roundConstants : List Nat := (List.range 24).map roundConstant

/-- The rho-offset walk of the keccak reference: starting from lane
`(1, 0)`, step `t` assigns rotation `(t+1)(t+2)/2 mod 64` to the current
lane and moves to `(y, 2x + 3y mod 5)`.  Produces `(laneIndex, offset)`
pairs for 24 steps (lane 0 keeps rotation 0). -/
def rhoWalk : Nat → Nat → Nat → Nat → List (Nat × Nat)
  | 0, _, _, _ => []
  | fuel + 1, t, x, y =>
    (x + 5 * y, (t + 1) * (t + 2) / 2 % 64) :: rhoWalk fuel (t + 1) y ((2 * x + 3 * y) % 5)

/-- Rho rotation offsets, indexed by `x + 5 * y`. -/
def rhoOffsets : List Nat :=
  (List.range 25).map (fun i => ((rhoWalk 24 0 1 0).lookup i).getD 0)

def keccakTheta (s : List Nat) : List Nat :=
  let c := (List.range 5).map (fun x =>
    s.getD x 0 ^^^ s.getD (x + 5) 0 ^^^ s.getD (x + 10) 0 ^^^ s.getD (x + 15) 0 ^^^
      s.getD (x + 20) 0)
  let d := (List.range 5).map (fun x =>
    c.getD ((x + 4) % 5) 0 ^^^ rotl64 (c.getD ((x + 1) % 5) 0) 1)
  (List.range 25).map (fun i => s.getD i 0 ^^^ d.getD (i % 5) 0)

def keccakRhoPi (s : List Nat) : List Nat :=
  (List.range 25).map (fun i =>
    let x := i % 5
    let y := i / 5
    let j := (x + 3 * y) % 5 + 5 * x
    rotl64 (s.getD j 0) (rhoOffsets.getD j 0))

def keccakChi (s : List Nat) : List Nat :=
  (List.range 25).map (fun i =>
    let x := i % 5
    let y := i / 5
    s.getD i 0 ^^^ ((s.getD ((x + 1) % 5 + 5 * y) 0 ^^^ mask64) &&& s.getD ((x + 2) % 5 + 5 * y) 0))

def keccakIota (rc : Nat) : List Nat → List Nat
  | [] => []
  | a :: rest => (a ^^^ rc) :: rest

def keccakRound (s : List Nat) (rc : Nat) : List Nat :=
  keccakIota rc (keccakChi (keccakRhoPi (keccakTheta s)))

def keccakF (s : List Nat) : List Nat := roundConstants.foldl keccakRound s

/-- Multi-rate padding `10*1` for rate 136 bytes. -/
def padKeccak (msg : List Nat) : List Nat :=
  let p := 136 - msg.length % 136
  if p = 1 then msg ++ [0x81]
  else msg ++ 0x01 :: (List.replicate (p - 2) 0 ++ [0x80])

/-- Little-endian bytes to a 64-bit lane. -/
def bytesToLane (bs : List Nat) : Nat := bs.foldr (fun b acc => b + 256 * acc) 0

def blockToLanes (block : List Nat) : List Nat :=
  (List.range 17).map (fun i => bytesToLane ((block.drop (8 * i)).take 8))

def xorIntoState (s block : List Nat) : List Nat :=
  (List.range 25).map (fun i => s.getD i 0 ^^^ block.getD i 0)

def absorbBlocks : Nat → List Nat → List Nat → List Nat
  | 0, _, s => s
  | fuel + 1, msg, s =>
    if msg.isEmpty then s
    else absorbBlocks fuel (msg.drop 136) (keccakF (xorIntoState s (blockToLanes (msg.take 136))))

def laneToBytes (n : Nat) : List Nat := (List.range 8).map (fun i => (n >>> (8 * i)) &&& 255)

/-- The keccak-256 hash of a byte string, as 32 bytes.  (Checked against the standard
vector: the hash of the empty input starts `c5 d2 46 01 ...`.) -/
def keccak256 (msg : List Nat) : List Nat :=
  let padded := padKeccak msg
  let st := absorbBlocks padded.length padded (List.replicate 25 0)
  ((st.take 4).map laneToBytes).flatten

/-! ### UTF-8 and the ethers hashing helpers -/

def utf8Char (c : Char) : List Nat :=
  let n := c.toNat
  if n < 0x80 then [n]
  else if n < 0x800 then [0xC0 + n / 0x40, 0x80 + n % 0x40]
  else if n < 0x10000 then [0xE0 + n / 0x1000, 0x80 + n / 0x40 % 0x40, 0x80 + n % 0x40]
  else [0xF0 + n / 0x40000, 0x80 + n / 0x1000 % 0x40, 0x80 + n / 0x40 % 0x40, 0x80 + n % 0x40]

def utf8OfChars (l : List Char) : List Nat := (l.map utf8Char).flatten

def utf8Bytes (s : String) : List Nat := utf8OfChars s.data

/-- Models `ethers.id(s)`: keccak-256 of the UTF-8 bytes of `s`. -/
def ethersId (s : String) : List Nat := keccak256 (utf8Bytes s)

/-- The constant `ethers.ZeroHash`, as 32 bytes. -/
def zeroHashBytes : List Nat := List.replicate 32 0

/-- The ENS fold: hash the labels right to left, starting from the zero
node, each step being `keccak256(parentNode ++ keccak256(label))`.  This is
the loop inside `ethers.namehash`. -/
def nodeOfLabels : List (List Nat) → List Nat
  | [] => zeroHashBytes
  | l :: rest => keccak256 (nodeOfLabels rest ++ keccak256 l)

/-- Split a character list at every dot (`"a.b"` becomes `["a", "b"]`). -/
def splitLabels : List Char → List (List Char)
  | [] => [[]]
  | c :: cs =>
    if c = '.' then [] :: splitLabels cs
    else
      match splitLabels cs with
      | [] => [[c]]
      | l :: ls => (c :: l) :: ls

/-- Models `ethers.namehash(name)`, with ENS normalization modelled as the
identity; sound for the lowercase ASCII names the source passes in. -/
def ethersNamehash (name : String) : List Nat :=
  nodeOfLabels ((splitLabels name.data).map utf8OfChars)

/-- The helper `toNodeHash` from `src/index.tsx`: empty (falsy) names map to
`ethers.ZeroHash`, anything else to `ethers.namehash` of the lowercased,
trimmed name. -/
def toNodeHash (name : String) : List Nat :=
  if name = "" then zeroHashBytes else ethersNamehash (jsTrim (jsToLower name))

/-- The constant `ethers.ZeroAddress`. -/
def zeroAddress : String := "0x0000000000000000000000000000000000000000"

/-! ### ethers address handling (`getAddress` / `isAddress`) -/

/-- The decimal digit characters, by character code. -/
def decDigitChars : List Char := (List.range 10).map (fun i => Char.ofNat (48 + i))

/-- The lowercase hex letter characters `a` through `f`. -/
def hexLowerLetters : List Char := (List.range 6).map (fun i => Char.ofNat (97 + i))

/-- The uppercase hex letter characters `A` through `F`. -/
def hexUpperLetters : List Char := (List.range 6).map (fun i => Char.ofNat (65 + i))

/-- Every character the hex character class accepts. -/
def hexDigitChars : List Char := decDigitChars ++ hexLowerLetters ++ hexUpperLetters

/-- Matches `[0-9a-fA-F]` exactly forty times on a character list. -/
def hex40 (l : List Char) : Bool := l.length = 40 && l.all (fun c => hexDigitChars.contains c)

/-- The EIP-55 checksum pass of ethers `getChecksumAddress`: lowercase the
address, keccak-hash the ASCII bytes of its 40 hex digits, and uppercase
every digit whose corresponding keccak nibble is at least 8. -/
def getChecksumAddress (address : String) : String :=
  let lower := (jsToLower address).data.drop 2
  let hashed := keccak256 (lower.map Char.toNat)
  let chars := (List.range 40).map (fun i =>
    let c := lower.getD i ' '
    let nib := if i % 2 = 0 then hashed.getD (i / 2) 0 >>> 4 else hashed.getD (i / 2) 0 &&& 15
    if 8 ≤ nib then jsCharToUpper c else c)
  String.mk ('0' :: 'x' :: chars)

/-- Models the regex test for an address that mixes upper and lower
case hex letters, so its checksum must be verified. -/
def hasMixedCaseHex (s : String) : Bool :=
  s.data.any (fun c => hexUpperLetters.contains c) &&
    s.data.any (fun c => hexLowerLetters.contains c)

/-- Models `ethers.getAddress`: accept an optional `0x` before forty hex
digits, prefix `0x` when
missing, compute the checksummed form, and reject a mixed-case input whose
checksum does not match.  (The ICAP `XE…` branch of ethers is not modelled:
no source input takes it.) -/
def ethersGetAddress (address : String) : Except String String :=
  let d := address.data
  if hex40 d || (decide (d.take 2 = ['0', 'x']) && hex40 (d.drop 2)) then
    let full := if d.take 2 = ['0', 'x'] then address else "0x" ++ address
    let result := getChecksumAddress full
    if hasMixedCaseHex full && result != full then Except.error "bad address checksum"
    else Except.ok result
  else Except.error "invalid address"

/-- Models `ethers.isAddress`. -/
def ethersIsAddress (s : String) : Bool := (ethersGetAddress s).isOk

/-! ### Configuration constants of `src/index.tsx` -/

/-- The source constant `REGISTRY_ADDRESS`, built by checksumming the
lowercased literal exactly as `ethers.getAddress` does. -/
def REGISTRY_ADDRESS : String :=
  getChecksumAddress "0xb94704422c2a1e396835a571837aa5ae53285a95"

/-- The source constant `RESOLVER_ADDRESS`. -/
def RESOLVER_ADDRESS : String :=
  getChecksumAddress "0xc6d566a56a1aff6508b41f6c90ff131615583bcd"

/-- The source constant `REGISTRAR_ADDRESS`. -/
def REGISTRAR_ADDRESS : String :=
  getChecksumAddress "0xedb58850756783a09633d62624b5178619e63b48"

/-- The helper `resolveAvatarUrl` from `src/index.tsx`. -/
def resolveAvatarUrl (name record : String) : String :=
  if record = "" then ""
  else if jsStartsWith record "http" then record
  else if jsStartsWith record "ipfs://" then
    "https://ipfs.io/ipfs/" ++ String.mk (record.data.drop 7)
  else "https://metadata.ens.domains/mainnet/avatar/" ++ name

/-! ### The oracle environment and issued-call traces

The handlers in `src/index.tsx` interact with the chain only through the
registry / resolver / registrar contracts and the provider's reverse lookup.
Each such interaction is an oracle in `ChainEnv`; a rejected promise is
`Except.error m` where `m` is the message the catch clause would display for
it (`err.reason || err.message || fallback`).  `hasWallet` models the
`window.ethereum` presence check, `chainId` the network reported by
`getNetwork()`, and `now` the value of `Date.now()`. -/

structure ChainEnv where
  hasWallet : Bool
  chainId : Nat
  now : Nat
  resolverAddrRec : List Nat → Except String String
  textRecord : String → List Nat → String → Except String String
  registryOwner : List Nat → Except String String
  registryResolver : List Nat → Except String String
  reverseLookup : String → Except String (Option String)
  registrarBalance : String → Except String Nat
  submitSetSubnodeOwner : List Nat → List Nat → String → Except String String
  waitForTx : String → Except String Unit

/-- One issued contract / provider call, in program order. -/
inductive ChainCall where
  | addrCall (node : List Nat)
  | textCall (contract : String) (node : List Nat) (key : String)
  | ownerCall (node : List Nat)
  | resolverCall (node : List Nat)
  | lookupCall (address : String)
  | balanceCall (address : String)
  | setSubnodeCall (node label : List Nat) (target : String)
  | waitCall (txHash : String)
  deriving DecidableEq

/-- The `ProfileData` shape from `src/index.tsx`. -/
structure ProfileData where
  owner : String
  resolver : String
  avatar : String
  twitter : String
  url : String
  address : String
  isMine : Bool
  deriving DecidableEq

/-- The value `setSearchResult` / `setSearchError` end up holding. -/
inductive SearchOutcome where
  | noQuery
  | failed (msg : String)
  | found (name : String) (available : Bool) (data : Option ProfileData)
  deriving DecidableEq

/-- Models `address?.toLowerCase() === other.toLowerCase()`: `false` whenever no
wallet is connected. -/
def connectedMatches (connected : Option String) (other : String) : Bool :=
  match connected with
  | some a => jsToLower a == jsToLower other
  | none => false

/-- The handler `handleSearch` from `src/index.tsx`: normalize the query, auto-suffix
`.base.eth` when it has no dot, read the resolver's `addr` record, and
either report availability or assemble the profile (owner best-effort, the
three text records each best-effort).  A rejection of the `addr` call is the
only one that reaches the catch clause. -/
def handleSearch (env : ChainEnv) (connected : Option String) (searchTerm : String) :
    SearchOutcome × List ChainCall :=
  let query0 := jsToLower (jsTrim searchTerm)
  if query0 = "" then (SearchOutcome.noQuery, [])
  else
    let query := if jsIncludesChar query0 '.' = true then query0 else query0 ++ ".base.eth"
    let node := toNodeHash query
    match env.resolverAddrRec node with
    | Except.error _ =>
      (SearchOutcome.failed "Resolution failed. Please check your connection.",
       [ChainCall.addrCall node])
    | Except.ok resolvedAddress =>
      if resolvedAddress = "" ∨ resolvedAddress = zeroAddress then
        (SearchOutcome.found query true none, [ChainCall.addrCall node])
      else
        let ownerVal := match env.registryOwner node with
          | Except.ok o => o
          | Except.error _ => zeroAddress
        let avatarRecord := match env.textRecord RESOLVER_ADDRESS node "avatar" with
          | Except.ok v => v
          | Except.error _ => ""
        let twitterVal := match env.textRecord RESOLVER_ADDRESS node "com.twitter" with
          | Except.ok v => v
          | Except.error _ => ""
        let urlVal := match env.textRecord RESOLVER_ADDRESS node "url" with
          | Except.ok v => v
          | Except.error _ => ""
        let avatarUrl := resolveAvatarUrl query avatarRecord
        let isMine := connectedMatches connected ownerVal ||
          connectedMatches connected resolvedAddress
        (SearchOutcome.found query false
           (some ⟨ownerVal, RESOLVER_ADDRESS, avatarUrl, twitterVal, urlVal, resolvedAddress,
                  isMine⟩),
         [ChainCall.addrCall node, ChainCall.ownerCall node,
          ChainCall.textCall RESOLVER_ADDRESS node "avatar",
          ChainCall.textCall RESOLVER_ADDRESS node "com.twitter",
          ChainCall.textCall RESOLVER_ADDRESS node "url"])

/-- State written by `fetchIdentityData`: `profileUpdate = none` means
`setUserProfile` was never reached (the outer catch fired first),
`some none` means the profile was cleared, `some (some (name, avatar))`
means it was set.  `balanceUpdate` likewise for `setRootNameBalance`. -/
structure IdentityResult where
  profileUpdate : Option (Option (String × String))
  balanceUpdate : Option Nat
  deriving DecidableEq

/-- The primary-name branch of `fetchIdentityData` (steps guarded by
`if (name && …endsWith)`); returns the `setUserProfile` argument and the
calls it issued. -/
def identityProfileStep (env : ChainEnv) (nameOpt : Option String) :
    Option (String × String) × List ChainCall :=
  match nameOpt with
  | some name =>
    if name ≠ "" ∧ (jsEndsWith (jsToLower name) ".base.eth" = true ∨
        jsEndsWith (jsToLower name) ".eth" = true) then
      let node := ethersNamehash name
      let resolverAddr := match env.registryResolver node with
        | Except.ok ra => ra
        | Except.error _ => RESOLVER_ADDRESS
      if resolverAddr ≠ zeroAddress then
        let avatarRecord := match env.textRecord resolverAddr node "avatar" with
          | Except.ok v => v
          | Except.error _ => ""
        (some (name, resolveAvatarUrl name avatarRecord),
         [ChainCall.resolverCall node, ChainCall.textCall resolverAddr node "avatar"])
      else (some (name, ""), [ChainCall.resolverCall node])
    else (none, [])
  | none => (none, [])

/-- The handler `fetchIdentityData` from `src/index.tsx`.  The reverse lookup has no
`.catch` of its own: when it rejects, the outer catch fires and nothing
else runs.  When it resolves, the profile branch runs (its inner calls are
each best-effort) and then the registrar's `balanceOf` is issued. -/
def fetchIdentityData (env : ChainEnv) (connected : Option String) :
    IdentityResult × List ChainCall :=
  match connected with
  | none => (⟨none, none⟩, [])
  | some addr =>
    match env.reverseLookup addr with
    | Except.error _ => (⟨none, none⟩, [ChainCall.lookupCall addr])
    | Except.ok nameOpt =>
      let step := identityProfileStep env nameOpt
      match env.registrarBalance addr with
      | Except.ok b =>
        (⟨some step.1, some b⟩,
         ChainCall.lookupCall addr :: step.2 ++ [ChainCall.balanceCall addr])
      | Except.error _ =>
        (⟨some step.1, none⟩,
         ChainCall.lookupCall addr :: step.2 ++ [ChainCall.balanceCall addr])

/-- The `MintedName` record from `src/index.tsx` (`timestamp: Date.now()`). -/
structure MintedName where
  name : String
  txHash : String
  timestamp : Nat
  deriving DecidableEq

/-- The final `mintStatus` of a `handleMintSubname` run (`unset` only when
no wallet is present and the handler returns before the try block). -/
inductive MintStatus where
  | unset
  | success (msg : String) (txHash : Option String)
  | errored (msg : String)
  deriving DecidableEq

/-- State written by one `handleMintSubname` run: the final status, the
resulting session activity log, whether `fetchIdentityData` was re-triggered
and whether the label input was cleared. -/
structure MintResult where
  status : MintStatus
  recentMints : List MintedName
  refreshed : Bool
  labelCleared : Bool
  deriving DecidableEq

def cleanName (s : String) : String := jsTrim (jsToLower s)

/-- The apostrophe character, used by the ownership error message. -/
def apostrophe : String := String.mk [Char.ofNat 39]

/-- The template literal thrown on an ownership mismatch. -/
def ownershipErrorMsg (parent : String) : String :=
  "You don" ++ apostrophe ++ "t own " ++ parent ++ "."

/-- The handler `handleMintSubname` from `src/index.tsx`: wallet presence, chain check,
trim/lowercase validation, address validation, registry ownership check,
`setSubnodeOwner` submission, confirmation wait, and only then the session
log prepend plus identity refresh.  Signer acquisition and `getNetwork()`
are modelled through `env.chainId`. -/
def handleMintSubname (env : ChainEnv) (connected : Option String)
    (parentName subLabel targetAddress : String) (recentMints : List MintedName) :
    MintResult × List ChainCall :=
  if env.hasWallet = false then (⟨MintStatus.unset, recentMints, false, false⟩, [])
  else if env.chainId ≠ 8453 then
    (⟨MintStatus.errored "Please switch to Base Mainnet.", recentMints, false, false⟩, [])
  else
    let cleanParent := cleanName parentName
    let cleanLabel := cleanName subLabel
    let cleanTarget := jsTrim targetAddress
    if cleanParent = "" ∨ cleanLabel = "" ∨ cleanTarget = "" then
      (⟨MintStatus.errored "Missing fields.", recentMints, false, false⟩, [])
    else if ethersIsAddress cleanTarget = false then
      (⟨MintStatus.errored "Invalid address.", recentMints, false, false⟩, [])
    else
      let parentNode := toNodeHash cleanParent
      let labelHash := ethersId cleanLabel
      match env.registryOwner parentNode with
      | Except.error msg =>
        (⟨MintStatus.errored msg, recentMints, false, false⟩, [ChainCall.ownerCall parentNode])
      | Except.ok ownerVal =>
        if connectedMatches connected ownerVal = false then
          (⟨MintStatus.errored (ownershipErrorMsg cleanParent), recentMints, false, false⟩,
           [ChainCall.ownerCall parentNode])
        else
          match ethersGetAddress cleanTarget with
          | Except.error msg =>
            (⟨MintStatus.errored msg, recentMints, false, false⟩,
             [ChainCall.ownerCall parentNode])
          | Except.ok checksummedTarget =>
            match env.submitSetSubnodeOwner parentNode labelHash checksummedTarget with
            | Except.error msg =>
              (⟨MintStatus.errored msg, recentMints, false, false⟩,
               [ChainCall.ownerCall parentNode,
                ChainCall.setSubnodeCall parentNode labelHash checksummedTarget])
            | Except.ok txHash =>
              match env.waitForTx txHash with
              | Except.error msg =>
                (⟨MintStatus.errored msg, recentMints, false, false⟩,
                 [ChainCall.ownerCall parentNode,
                  ChainCall.setSubnodeCall parentNode labelHash checksummedTarget,
                  ChainCall.waitCall txHash])
              | Except.ok _ =>
                (⟨MintStatus.success
                    ("Successfully minted " ++ cleanLabel ++ "." ++ cleanParent ++ "!")
                    (some txHash),
                  ⟨cleanLabel ++ "." ++ cleanParent, txHash, env.now⟩ :: recentMints,
                  true, true⟩,
                 [ChainCall.ownerCall parentNode,
                  ChainCall.setSubnodeCall parentNode labelHash checksummedTarget,
                  ChainCall.waitCall txHash])

/-! ### Concrete environments used by witnesses and counterexamples -/

/-- A healthy Base-mainnet environment in which every name is free. -/
def envAvailable : ChainEnv where
  hasWallet := true
  chainId := 8453
  now := 1700000000000
  resolverAddrRec := fun _ => Except.ok zeroAddress
  textRecord := fun _ _ _ => Except.ok ""
  registryOwner := fun _ => Except.ok zeroAddress
  registryResolver := fun _ => Except.ok zeroAddress
  reverseLookup := fun _ => Except.ok none
  registrarBalance := fun _ => Except.ok 0
  submitSetSubnodeOwner := fun _ _ _ => Except.ok "0xtx1"
  waitForTx := fun _ => Except.ok ()

/-- Same, but the resolver `addr` read rejects. -/
def envAddrFailure : ChainEnv :=
  { envAvailable with resolverAddrRec := fun _ => Except.error "network down" }

/-- Same, but the reverse lookup rejects. -/
def envLookupFailure : ChainEnv :=
  { envAvailable with reverseLookup := fun _ => Except.error "network down" }

/-- The wallet address used by the mint witnesses. -/
def connectedAddr : String := "0xaa00000000000000000000000000000000000001"

/-- An address distinct from `connectedAddr`. -/
def otherOwner : String := "0xbb00000000000000000000000000000000000002"

/-- Environment in which the registry reports `connectedAddr` as owner. -/
def envMintable : ChainEnv :=
  { envAvailable with registryOwner := fun _ => Except.ok connectedAddr }

/-- Environment in which the registry reports a different owner. -/
def envOtherOwner : ChainEnv :=
  { envAvailable with registryOwner := fun _ => Except.ok otherOwner }

/-- Environment whose wallet sits on Ethereum mainnet (chain id 1). -/
def envWrongChain : ChainEnv := { envAvailable with chainId := 1 }

/-- A syntactically valid (all lowercase, digits only) target address. -/
def targetAddr : String := "0x0000000000000000000000000000000000000000"

/-- A dot-free name component on which the source's normalization
(`toLowerCase().trim()`) acts as the identity: nonempty, no whitespace, no
uppercase ASCII letter, no dot.  Lowercase ASCII labels satisfy this. -/
def labelOk (s : String) : Prop :=
  s ≠ "" ∧ ∀ c ∈ s.data, isWsChar c = false ∧ jsCharToLower c = c ∧ c ≠ '.'

instance (s : String) : Decidable (labelOk s) := by
  unfold labelOk
  infer_instance

/-! ### Helper lemmas -/

theorem dropWhile_eq_self_of {p : Char → Bool} {l : List Char}
    (h : ∀ c ∈ l, p c = false) : l.dropWhile p = l := by
  cases l with
  | nil => rfl
  | cons a t => simp [List.dropWhile_cons, h a (List.mem_cons_self a t)]

theorem trimChars_eq_self {l : List Char} (h : ∀ c ∈ l, isWsChar c = false) :
    trimChars l = l := by
  unfold trimChars
  rw [dropWhile_eq_self_of h, dropWhile_eq_self_of, List.reverse_reverse]
  intro c hc
  exact h c (List.mem_reverse.mp hc)

theorem map_jsCharToLower_eq_self {l : List Char} (h : ∀ c ∈ l, jsCharToLower c = c) :
    l.map jsCharToLower = l := by
  induction l with
  | nil => rfl
  | cons a t ih =>
    simp only [List.map_cons, h a (List.mem_cons_self a t)]
    rw [ih fun c hc => h c (List.mem_cons_of_mem a hc)]

theorem splitLabels_of_no_dot {l : List Char} (h : '.' ∉ l) : splitLabels l = [l] := by
  induction l with
  | nil => rfl
  | cons a t ih =>
    have ha : ¬(a = '.') := fun he => h (he ▸ List.mem_cons_self a t)
    have ht : '.' ∉ t := fun hm => h (List.mem_cons_of_mem a hm)
    simp only [splitLabels, if_neg ha, ih ht]

theorem splitLabels_append_dot {a b : List Char} (h : '.' ∉ a) :
    splitLabels (a ++ '.' :: b) = a :: splitLabels b := by
  induction a with
  | nil => simp [splitLabels]
  | cons c t ih =>
    have hc : ¬(c = '.') := fun he => h (he ▸ List.mem_cons_self c t)
    have ht : '.' ∉ t := fun hm => h (List.mem_cons_of_mem c hm)
    simp only [List.cons_append, splitLabels, if_neg hc, List.append_eq, ih ht]

/-- On a string without whitespace or uppercase ASCII letters, the source's
`toLowerCase().trim()` normalization is the identity (at the `data` level). -/
theorem normFix (s : String)
    (h : ∀ c ∈ s.data, isWsChar c = false ∧ jsCharToLower c = c) :
    (jsTrim (jsToLower s)).data = s.data := by
  show trimChars (s.data.map jsCharToLower) = s.data
  rw [map_jsCharToLower_eq_self (fun c hc => (h c hc).2)]
  exact trimChars_eq_self (fun c hc => (h c hc).1)

/-- The hash `toNodeHash` of a single normalized label is one ENS fold step from the
zero node. -/
theorem toNodeHash_label (b : String) (hb : labelOk b) :
    toNodeHash b = nodeOfLabels [utf8Bytes b] := by
  obtain ⟨hne, hbAll⟩ := hb
  unfold toNodeHash
  rw [if_neg hne]
  unfold ethersNamehash
  rw [normFix b (fun c hc => ⟨(hbAll c hc).1, (hbAll c hc).2.1⟩)]
  rw [splitLabels_of_no_dot (fun hm => (hbAll '.' hm).2.2 rfl)]
  rfl

/-- The hierarchical hash of `a.b` is one fold step over the hash of `b`
and the label hash of `a`. -/
theorem toNodeHash_fold (a b : String) (ha : labelOk a) (hb : labelOk b) :
    toNodeHash (a ++ "." ++ b) = keccak256 (toNodeHash b ++ ethersId a) := by
  obtain ⟨hane, haAll⟩ := ha
  obtain ⟨hbne, hbAll⟩ := hb
  have hdot : (("." : String)).data = ['.'] := rfl
  have hdata : (a ++ "." ++ b).data = a.data ++ '.' :: b.data := by
    rw [String.data_append, String.data_append, hdot, List.append_assoc]
    rfl
  have hne : a ++ "." ++ b ≠ "" := by
    intro h
    have h2 := congrArg String.data h
    rw [hdata] at h2
    simp at h2
  unfold toNodeHash
  rw [if_neg hne, if_neg hbne]
  unfold ethersNamehash
  have hall : ∀ c ∈ (a ++ "." ++ b).data, isWsChar c = false ∧ jsCharToLower c = c := by
    rw [hdata]
    intro c hc
    rcases List.mem_append.mp hc with h1 | h2
    · exact ⟨(haAll c h1).1, (haAll c h1).2.1⟩
    · rcases List.mem_cons.mp h2 with rfl | h3
      · exact ⟨by decide, by decide⟩
      · exact ⟨(hbAll c h3).1, (hbAll c h3).2.1⟩
  rw [normFix _ hall, hdata]
  rw [splitLabels_append_dot (fun hm => (haAll '.' hm).2.2 rfl)]
  rw [splitLabels_of_no_dot (fun hm => (hbAll '.' hm).2.2 rfl)]
  rw [normFix b (fun c hc => ⟨(hbAll c hc).1, (hbAll c hc).2.1⟩)]
  rw [splitLabels_of_no_dot (fun hm => (hbAll '.' hm).2.2 rfl)]
  rfl

/-- C2: for normalized dot-free labels `a` and `b` (in particular all
lowercase ASCII labels), the node hash of the dotted name `a.b`
(`toNodeHash`, i.e. `ethers.namehash`) equals the single folding step
`keccak256(toNodeHash(b) ++ labelHash(a))` with `labelHash = ethers.id`;
and the hierarchical hash of the literal name `"a.b"` differs from its
single flat label hash `ethers.id("a.b")`. -/
theorem namehash_fold_step_and_flat_hash_differ :
    (∀ a b : String, labelOk a → labelOk b →
      toNodeHash (a ++ "." ++ b) = keccak256 (toNodeHash b ++ ethersId a)) ∧
    toNodeHash "a.b" ≠ ethersId "a.b" :=
  ⟨fun a b ha hb => toNodeHash_fold a b ha hb, by decide⟩

/-- Witness for C2 at the spec's own instance `a = "a"`, `b = "b"`. -/
theorem namehash_fold_step_and_flat_hash_differ_witness :
    (labelOk "a" ∧ labelOk "b") ∧
    toNodeHash ("a" ++ "." ++ "b") = keccak256 (toNodeHash "b" ++ ethersId "a") :=
  ⟨⟨by decide, by decide⟩,
   namehash_fold_step_and_flat_hash_differ.1 "a" "b" (by decide) (by decide)⟩

/-- C1: whenever the resolver's `addr()` read for `node(N)` returns the
zero address or a falsy value, `handleSearch` reports
`{available: true, name: N}` and the `addr` read is the only issued call:
no registry owner read and no text-record fetches occur. -/
theorem search_zero_address_reports_available
    (env : ChainEnv) (connected : Option String) (N r : String)
    (hnorm : jsToLower (jsTrim N) = N) (hne : N ≠ "")
    (hdot : jsIncludesChar N '.' = true)
    (haddr : env.resolverAddrRec (toNodeHash N) = Except.ok r)
    (hr : r = "" ∨ r = zeroAddress) :
    handleSearch env connected N =
      (SearchOutcome.found N true none, [ChainCall.addrCall (toNodeHash N)]) := by
  rcases hr with rfl | rfl <;> simp [handleSearch, hnorm, hdot, haddr, hne]

/-- Witness for C1: a zero-resolving environment and a normalized query. -/
theorem search_zero_address_reports_available_witness :
    (jsToLower (jsTrim "alice.base.eth") = "alice.base.eth" ∧
      jsIncludesChar "alice.base.eth" '.' = true) ∧
    handleSearch envAvailable none "alice.base.eth" =
      (SearchOutcome.found "alice.base.eth" true none,
       [ChainCall.addrCall (toNodeHash "alice.base.eth")]) :=
  ⟨⟨by decide, by decide⟩,
   search_zero_address_reports_available envAvailable none "alice.base.eth" zeroAddress
     (by decide) (by decide) (by decide) rfl (Or.inr rfl)⟩

/-- C5 counterexample: with a rejecting `addr()` read, the search does NOT
report the name available (the code routes the rejection to the catch
clause), contradicting the claim at the concrete query
`"alice.base.eth"`. -/
theorem search_addr_rejection_not_available :
    (handleSearch envAddrFailure none "alice.base.eth").1 ≠
      SearchOutcome.found "alice.base.eth" true none := by
  decide

/-- C5 (amended): when the resolver's `addr()` read for `node(N)` rejects,
the search surfaces the resolution-failure error instead of reporting the
name available, and issues no further calls. -/
theorem search_addr_rejection_errors
    (env : ChainEnv) (connected : Option String) (N msg : String)
    (hnorm : jsToLower (jsTrim N) = N) (hne : N ≠ "")
    (hdot : jsIncludesChar N '.' = true)
    (haddr : env.resolverAddrRec (toNodeHash N) = Except.error msg) :
    handleSearch env connected N =
      (SearchOutcome.failed "Resolution failed. Please check your connection.",
       [ChainCall.addrCall (toNodeHash N)]) := by
  simp [handleSearch, hnorm, hdot, haddr, hne]

/-- Witness for the amended C5. -/
theorem search_addr_rejection_errors_witness :
    jsToLower (jsTrim "bob.base.eth") = "bob.base.eth" ∧
    handleSearch envAddrFailure none "bob.base.eth" =
      (SearchOutcome.failed "Resolution failed. Please check your connection.",
       [ChainCall.addrCall (toNodeHash "bob.base.eth")]) :=
  ⟨by decide,
   search_addr_rejection_errors envAddrFailure none "bob.base.eth" "network down"
     (by decide) (by decide) (by decide) rfl⟩

/-- C6: a rejection of the top-level `addr()` availability read surfaces
the single user-facing resolution-failure message, aborts the search with
no `SearchResult` (neither available nor taken), and issues no further
calls. -/
theorem search_top_level_failure_aborts
    (env : ChainEnv) (connected : Option String) (N msg : String)
    (hnorm : jsToLower (jsTrim N) = N) (hne : N ≠ "")
    (hdot : jsIncludesChar N '.' = true)
    (haddr : env.resolverAddrRec (toNodeHash N) = Except.error msg) :
    (handleSearch env connected N).1 =
        SearchOutcome.failed "Resolution failed. Please check your connection." ∧
    (∀ nm av d, (handleSearch env connected N).1 ≠ SearchOutcome.found nm av d) ∧
    (handleSearch env connected N).2 = [ChainCall.addrCall (toNodeHash N)] := by
  have hmain : handleSearch env connected N =
      (SearchOutcome.failed "Resolution failed. Please check your connection.",
       [ChainCall.addrCall (toNodeHash N)]) := by
    simp [handleSearch, hnorm, hdot, haddr, hne]
  refine ⟨by rw [hmain], ?_, by rw [hmain]⟩
  intro nm av d
  rw [hmain]
  simp

/-- Witness for C6. -/
theorem search_top_level_failure_aborts_witness :
    envAddrFailure.resolverAddrRec (toNodeHash "carol.base.eth") =
        Except.error "network down" ∧
    (handleSearch envAddrFailure none "carol.base.eth").1 =
      SearchOutcome.failed "Resolution failed. Please check your connection." :=
  ⟨rfl,
   (search_top_level_failure_aborts envAddrFailure none "carol.base.eth" "network down"
     (by decide) (by decide) (by decide) rfl).1⟩

/-- C8 counterexample: when the reverse lookup rejects, `fetchIdentityData`
never reaches the registrar's `balanceOf` (the rejection hits the outer
catch), contradicting the claim at the concrete address `"0xabc"`. -/
theorem identity_lookup_rejection_skips_balance :
    ChainCall.balanceCall "0xabc" ∉ (fetchIdentityData envLookupFailure (some "0xabc")).2 := by
  decide

/-- C8 (amended): the registrar `balanceOf` read is issued whenever the
reverse lookup completes (with a name, an unsuitable name, or nothing);
only a rejected reverse lookup aborts the fetch before it. -/
theorem identity_balance_runs_when_lookup_completes
    (env : ChainEnv) (a : String) (r : Option String)
    (h : env.reverseLookup a = Except.ok r) :
    ChainCall.balanceCall a ∈ (fetchIdentityData env (some a)).2 := by
  cases hb : env.registrarBalance a <;> simp [fetchIdentityData, h, hb]

/-- Witness for the amended C8: the lookup returns no primary name and the
balance read still happens. -/
theorem identity_balance_runs_when_lookup_completes_witness :
    envAvailable.reverseLookup "0xabc" = Except.ok none ∧
    ChainCall.balanceCall "0xabc" ∈ (fetchIdentityData envAvailable (some "0xabc")).2 :=
  ⟨rfl, identity_balance_runs_when_lookup_completes envAvailable "0xabc" none rfl⟩

/-- C10: with the wallet on any chain other than 8453, `handleMintSubname`
fails with exactly "Please switch to Base Mainnet." regardless of the
parent, label and target inputs, issuing no contract call at all (so before
any validation or ownership read) and leaving the session log unchanged. -/
theorem mint_wrong_chain_rejects_early
    (env : ChainEnv) (connected : Option String) (p l t : String) (rm : List MintedName)
    (hw : env.hasWallet = true) (hc : env.chainId ≠ 8453) :
    handleMintSubname env connected p l t rm =
      (⟨MintStatus.errored "Please switch to Base Mainnet.", rm, false, false⟩, []) := by
  simp [handleMintSubname, hw, hc]

/-- Witness for C10, with deliberately invalid inputs left unexamined. -/
theorem mint_wrong_chain_rejects_early_witness :
    envWrongChain.chainId ≠ 8453 ∧
    handleMintSubname envWrongChain none "" "" "not-an-address" [] =
      (⟨MintStatus.errored "Please switch to Base Mainnet.", [], false, false⟩, []) :=
  ⟨by decide,
   mint_wrong_chain_rejects_early envWrongChain none "" "" "not-an-address" [] rfl (by decide)⟩

/-- C7: on the right chain, an empty (after trim/lowercase) parent, label
or target fails with "Missing fields.", and a nonempty but syntactically
invalid target fails with "Invalid address."; both before any contract
call. -/
theorem mint_invalid_input_fails_fast
    (env : ChainEnv) (connected : Option String) (p l t : String) (rm : List MintedName)
    (hw : env.hasWallet = true) (hc : env.chainId = 8453) :
    (cleanName p = "" ∨ cleanName l = "" ∨ jsTrim t = "" →
      handleMintSubname env connected p l t rm =
        (⟨MintStatus.errored "Missing fields.", rm, false, false⟩, [])) ∧
    (cleanName p ≠ "" → cleanName l ≠ "" → jsTrim t ≠ "" →
      ethersIsAddress (jsTrim t) = false →
      handleMintSubname env connected p l t rm =
        (⟨MintStatus.errored "Invalid address.", rm, false, false⟩, [])) := by
  constructor
  · intro hempty
    simp [handleMintSubname, hw, hc, hempty]
  · intro hp hl ht hv
    simp [handleMintSubname, hw, hc, hp, hl, ht, hv]

/-- Witness for C7 (invalid-address branch). -/
theorem mint_invalid_input_fails_fast_witness :
    ethersIsAddress (jsTrim "zzz") = false ∧
    handleMintSubname envAvailable none "mine.base.eth" "shop" "zzz" [] =
      (⟨MintStatus.errored "Invalid address.", [], false, false⟩, []) :=
  ⟨by decide,
   (mint_invalid_input_fails_fast envAvailable none "mine.base.eth" "shop" "zzz" [] rfl rfl).2
     (by decide) (by decide) (by decide) (by decide)⟩

/-- C4: when the registry's owner of the parent node does not
case-insensitively equal the connected address, the mint fails with the
ownership error naming the parent, and the ownership read is the only call
issued: `setSubnodeOwner` is never invoked and the log is unchanged. -/
theorem mint_ownership_mismatch_fails_without_submission
    (env : ChainEnv) (connected : Option String) (p l t : String) (rm : List MintedName)
    (ownerVal : String)
    (hw : env.hasWallet = true) (hc : env.chainId = 8453)
    (hp : cleanName p ≠ "") (hl : cleanName l ≠ "") (ht : jsTrim t ≠ "")
    (hv : ethersIsAddress (jsTrim t) = true)
    (ho : env.registryOwner (toNodeHash (cleanName p)) = Except.ok ownerVal)
    (hm : connectedMatches connected ownerVal = false) :
    handleMintSubname env connected p l t rm =
      (⟨MintStatus.errored (ownershipErrorMsg (cleanName p)), rm, false, false⟩,
       [ChainCall.ownerCall (toNodeHash (cleanName p))]) := by
  simp [handleMintSubname, hw, hc, hp, hl, ht, hv, ho, hm]

/-- Witness for C4: the registry reports a different owner. -/
theorem mint_ownership_mismatch_fails_without_submission_witness :
    connectedMatches (some connectedAddr) otherOwner = false ∧
    handleMintSubname envOtherOwner (some connectedAddr) "mine.base.eth" "shop" targetAddr [] =
      (⟨MintStatus.errored (ownershipErrorMsg (cleanName "mine.base.eth")), [], false, false⟩,
       [ChainCall.ownerCall (toNodeHash (cleanName "mine.base.eth"))]) :=
  ⟨by decide,
   mint_ownership_mismatch_fails_without_submission envOtherOwner (some connectedAddr)
     "mine.base.eth" "shop" targetAddr [] otherOwner rfl rfl (by decide) (by decide)
     (by decide) (by decide) rfl (by decide)⟩

/-- C3: when validation and the parent-ownership check pass,
`handleMintSubname` submits `setSubnodeOwner` with exactly the namehash of
the trimmed lowercased parent, `ethers.id` of the trimmed lowercased label
and the (checksum-normalized) target address; on confirmation it prepends
`{name: label.parent, txHash, timestamp}` to the session activity log. -/
theorem mint_success_calls_registry_and_logs
    (env : ChainEnv) (connected : Option String) (p l t : String) (rm : List MintedName)
    (ownerVal chk txh : String)
    (hw : env.hasWallet = true) (hc : env.chainId = 8453)
    (hp : cleanName p ≠ "") (hl : cleanName l ≠ "") (ht : jsTrim t ≠ "")
    (hv : ethersIsAddress (jsTrim t) = true)
    (ho : env.registryOwner (toNodeHash (cleanName p)) = Except.ok ownerVal)
    (hm : connectedMatches connected ownerVal = true)
    (hga : ethersGetAddress (jsTrim t) = Except.ok chk)
    (hs : env.submitSetSubnodeOwner (toNodeHash (cleanName p)) (ethersId (cleanName l)) chk =
      Except.ok txh)
    (hwt : env.waitForTx txh = Except.ok ()) :
    handleMintSubname env connected p l t rm =
      (⟨MintStatus.success
          ("Successfully minted " ++ cleanName l ++ "." ++ cleanName p ++ "!") (some txh),
        ⟨cleanName l ++ "." ++ cleanName p, txh, env.now⟩ :: rm, true, true⟩,
       [ChainCall.ownerCall (toNodeHash (cleanName p)),
        ChainCall.setSubnodeCall (toNodeHash (cleanName p)) (ethersId (cleanName l)) chk,
        ChainCall.waitCall txh]) := by
  simp [handleMintSubname, hw, hc, hp, hl, ht, hv, ho, hm, hga, hs, hwt]

/-- Witness for C3: parent `mine.base.eth`, label `shop`, owner equal to
the connected wallet. -/
theorem mint_success_calls_registry_and_logs_witness :
    ethersIsAddress (jsTrim targetAddr) = true ∧
    connectedMatches (some connectedAddr) connectedAddr = true ∧
    handleMintSubname envMintable (some connectedAddr) "mine.base.eth" "shop" targetAddr [] =
      (⟨MintStatus.success
          ("Successfully minted " ++ cleanName "shop" ++ "." ++ cleanName "mine.base.eth" ++ "!")
          (some "0xtx1"),
        ⟨cleanName "shop" ++ "." ++ cleanName "mine.base.eth", "0xtx1", envMintable.now⟩ :: [],
        true, true⟩,
       [ChainCall.ownerCall (toNodeHash (cleanName "mine.base.eth")),
        ChainCall.setSubnodeCall (toNodeHash (cleanName "mine.base.eth"))
          (ethersId (cleanName "shop")) (getChecksumAddress targetAddr),
        ChainCall.waitCall "0xtx1"]) :=
  ⟨by decide, by decide,
   mint_success_calls_registry_and_logs envMintable (some connectedAddr)
     "mine.base.eth" "shop" targetAddr [] connectedAddr (getChecksumAddress targetAddr) "0xtx1"
     rfl rfl (by decide) (by decide) (by decide) (by decide) rfl (by decide) rfl rfl rfl⟩

/-- Exhaustive shape of one `handleMintSubname` run: either the session log
comes back unchanged, or the submission and the confirmation both
succeeded and exactly one record was prepended. -/
theorem handleMintSubname_log_cases
    (env : ChainEnv) (connected : Option String) (p l t : String) (rm : List MintedName) :
    (handleMintSubname env connected p l t rm).1.recentMints = rm ∨
    (∃ chk txh,
      ethersGetAddress (jsTrim t) = Except.ok chk ∧
      env.submitSetSubnodeOwner (toNodeHash (cleanName p)) (ethersId (cleanName l)) chk =
        Except.ok txh ∧
      env.waitForTx txh = Except.ok () ∧
      (handleMintSubname env connected p l t rm).1.status =
        MintStatus.success
          ("Successfully minted " ++ cleanName l ++ "." ++ cleanName p ++ "!") (some txh) ∧
      (handleMintSubname env connected p l t rm).1.recentMints =
        ⟨cleanName l ++ "." ++ cleanName p, txh, env.now⟩ :: rm) := by
  simp only [handleMintSubname]
  split
  · exact Or.inl rfl
  split
  · exact Or.inl rfl
  split
  · exact Or.inl rfl
  split
  · exact Or.inl rfl
  split
  · exact Or.inl rfl
  next ownerVal heq =>
    split
    · exact Or.inl rfl
    split
    · exact Or.inl rfl
    next chk heq2 =>
      split
      · exact Or.inl rfl
      next txh heq3 =>
        split
        · exact Or.inl rfl
        next u heq4 =>
          cases u
          exact Or.inr ⟨chk, txh, heq2, heq3, heq4, rfl, rfl⟩

/-- C9: a failing mint (whatever step failed) leaves the session activity
log untouched; the log changes only when the submission succeeded and the
on-chain confirmation succeeded, and then exactly by prepending the new
record. -/
theorem mint_failure_commits_no_log_entry
    (env : ChainEnv) (connected : Option String) (p l t : String) (rm : List MintedName) :
    (∀ msg, (handleMintSubname env connected p l t rm).1.status = MintStatus.errored msg →
      (handleMintSubname env connected p l t rm).1.recentMints = rm) ∧
    ((handleMintSubname env connected p l t rm).1.recentMints ≠ rm →
      ∃ chk txh,
        env.submitSetSubnodeOwner (toNodeHash (cleanName p)) (ethersId (cleanName l)) chk =
          Except.ok txh ∧
        env.waitForTx txh = Except.ok () ∧
        (handleMintSubname env connected p l t rm).1.recentMints =
          ⟨cleanName l ++ "." ++ cleanName p, txh, env.now⟩ :: rm) := by
  rcases handleMintSubname_log_cases env connected p l t rm with
    h | ⟨chk, txh, hga, hs, hwt, hst, hlog⟩
  · exact ⟨fun _ _ => h, fun hne => absurd h hne⟩
  · constructor
    · intro msg hmsg
      rw [hst] at hmsg
      simp at hmsg
    · intro _
      exact ⟨chk, txh, hs, hwt, hlog⟩

/-- Witness for C9: a wrong-chain failure commits nothing to the log. -/
theorem mint_failure_commits_no_log_entry_witness :
    (handleMintSubname envWrongChain none "p" "l" "t" []).1.status =
        MintStatus.errored "Please switch to Base Mainnet." ∧
    (handleMintSubname envWrongChain none "p" "l" "t" []).1.recentMints = [] :=
  ⟨rfl,
   (mint_failure_commits_no_log_entry envWrongChain none "p" "l" "t" []).1
     "Please switch to Base Mainnet." rfl⟩

/-- Sanity anchor for the keccak embedding: the hash of the empty input is
the standard vector `c5d24601 86f7233c 927e7db2 dcc703c0 e500b653 ca82273b
7bfad804 5d85a470`. -/
theorem keccak256_empty_vector :
    keccak256 [] =
      [0xc5, 0xd2, 0x46, 0x01, 0x86, 0xf7, 0x23, 0x3c, 0x92, 0x7e, 0x7d, 0xb2, 0xdc, 0xc7,
       0x03, 0xc0, 0xe5, 0x00, 0xb6, 0x53, 0xca, 0x82, 0x27, 0x3b, 0x7b, 0xfa, 0xd8, 0x04,
       0x5d, 0x85, 0xa4, 0x70] := by
  decide
